import Mathlib

/-!
# Verification of the `auditorbos` election contract

Shallow embedding of the `eosbkk/referendum` auditor-election contract.

The data model (`contr_config`, `candidate`, `vote`) is translated from the
table structs in the contract header; the `stake` transfer-notification
handler is translated from
`src/contracts/auditor.bos/src/external_observable_actions.cpp`.
EOSIO `name` values are 64-bit integers and are modelled as `Nat`;
`time_point_sec` values are seconds and are modelled as `Nat`;
`eosio::asset` is an (amount, symbol) pair with a 64-bit signed amount,
modelled as `Int` × `Nat`.

The bodies of `unstake` and `newtenure` are not among the repository
sources (only their declarations and doc comments are); where a claim
needs them they are modelled from the spec, and each such definition says
so in its doc comment.
-/

/-- An EOSIO asset: an amount together with a symbol code.  Precision is
part of the symbol code and plays no role in the contract sources. -/
structure asset where
  amount : Int
  symbol : Nat
deriving DecidableEq

/-- Addition of assets as used by `row.locked_tokens += quantity` in the
`stake` handler: amounts add, the symbol of the left operand is kept.
(The EOSIO library operator also asserts the two symbols are equal;
that assertion lives in the library, outside the sources of this repository,
and the handler itself performs no symbol comparison.) -/
def asset_add (a b : asset) : asset :=
  { amount := a.amount + b.amount, symbol := a.symbol }

/-- The `config` singleton struct `contr_config` from the contract header,
field for field: lockup asset, max votes per voter (default 3), number of
auditors elected (default 5), auth account (default the zero name), auditor
auth threshold, and the lockup release time delay. -/
structure contr_config where
  lockupasset : asset
  maxvotes : Nat
  numelected : Nat
  authaccount : Nat
  auth_threshold_auditors : Nat
  lockup_release_time_delay : Nat
deriving DecidableEq

/-- A freshly value-initialized `contr_config`: the C++ default member
initializers give `maxvotes = 3`, `numelected = 5`, `authaccount = name{0}`;
the remaining members are value-initialized (zero). -/
def contr_config.fresh : contr_config :=
  { lockupasset := ⟨0, 0⟩, maxvotes := 3, numelected := 5, authaccount := 0,
    auth_threshold_auditors := 0, lockup_release_time_delay := 0 }

/-- The `candidates` table row struct from the contract header. -/
structure candidate where
  candidate_name : Nat
  locked_tokens : asset
  total_votes : Nat
  is_active : Nat
  unstaking_end_time_stamp : Nat
deriving DecidableEq

/-- The `votes` table row struct from the contract header. -/
structure vote where
  voter : Nat
  proxy : Nat
  weight : Nat
  candidates : List Nat
deriving DecidableEq

/-- The persistent state of the contract that the claims touch: the config
singleton, the `candidates` multi-index table and the `votes` multi-index
table (each table modelled as its list of rows). -/
structure contract_state where
  config : contr_config
  registered_candidates : List candidate
  votes_cast_by_members : List vote
deriving DecidableEq

/-- `configs()`: read the configuration singleton. -/
def contract_state.configs (s : contract_state) : contr_config :=
  s.config

/-- `registered_candidates.find(k)`: look a row up by primary key
(the candidate name). -/
def candidates_find (t : List candidate) (k : Nat) : Option candidate :=
  t.find? (fun c => c.candidate_name == k)

/-- `registered_candidates.modify(it, f)`: apply `f` to the row(s) whose
primary key is `k`, leaving every other row unchanged. -/
def candidates_modify (t : List candidate) (k : Nat) (f : candidate → candidate) :
    List candidate :=
  t.map (fun c => if c.candidate_name == k then f c else c)

/-- `auditorbos::stake`, translated from
`src/contracts/auditor.bos/src/external_observable_actions.cpp`.
`self` is the contract account (`_self`), `now` the value of
`current_time_point()`.  If `to == _self`: an existing candidate row for
`from` gets `locked_tokens += quantity` and its unstaking end time reset
to `now + lockup_release_time_delay`; otherwise a fresh inactive row is
emplaced with `locked_tokens = quantity` and `total_votes = 0`.  The memo
is never inspected. -/
def stake (self : Nat) (s : contract_state) (now : Nat)
    (from_ to_ : Nat) (quantity : asset) (memo : String) : contract_state :=
  if to_ == self then
    let unstaking_period := now + s.configs.lockup_release_time_delay
    match candidates_find s.registered_candidates from_ with
    | some _ =>
      { s with registered_candidates :=
          candidates_modify s.registered_candidates from_ (fun row =>
            { row with
                locked_tokens := asset_add row.locked_tokens quantity,
                unstaking_end_time_stamp := unstaking_period }) }
    | none =>
      { s with registered_candidates := s.registered_candidates ++
          [{ candidate_name := from_, locked_tokens := quantity, total_votes := 0,
             is_active := 0, unstaking_end_time_stamp := unstaking_period }] }
  else s

/-- Errors of the `unstake` action, named as in the spec. -/
inductive unstake_err
  | NotPreviouslyCandidate
  | StillActive
  | LockedUp
deriving DecidableEq

/-- An outbound transfer request issued to the external token ledger. -/
structure transfer_out where
  to_account : Nat
  quantity : asset
deriving DecidableEq

/-- Modelled from the spec: the body of `auditorbos::unstake` is not among
the repository sources, only its declaration and doc comment are.
Per spec 4.2: fails with `NotPreviouslyCandidate` if no candidate row
exists for `cand`; fails with `StillActive` if the row is active; fails
with `LockedUp` if `now < unstakeUnlockTime`; on success issues an
outbound transfer of `lockedStake` back to `cand` and then zeroes the
`lockedStake` of the row.  A failure aborts the whole action, so an error
carries no successor state. -/
def unstake (s : contract_state) (now : Nat) (cand : Nat) :
    Except unstake_err (contract_state × transfer_out) :=
  match candidates_find s.registered_candidates cand with
  | none => .error .NotPreviouslyCandidate
  | some c =>
    if c.is_active ≠ 0 then .error .StillActive
    else if now < c.unstaking_end_time_stamp then .error .LockedUp
    else
      .ok ({ s with registered_candidates :=
               candidates_modify s.registered_candidates cand (fun row =>
                 { row with locked_tokens := { row.locked_tokens with amount := 0 } }) },
           { to_account := cand, quantity := c.locked_tokens })

/-- Errors of the two `newtenure` gates, named as in the spec. -/
inductive newtenure_err
  | TooSoon
  | QuorumNotMet
deriving DecidableEq

/-- Modelled from the spec: the quorum/period parameters of `newtenure`
(`periodLength`, `initialVoteQuorumPercent`, `voteQuorumPercent`); they
appear in the spec description of the gates but are absent from the
`contr_config` struct in the sources, as is the `newtenure` body. -/
structure tenure_params where
  periodLength : Nat
  initial_vote_quorum_percent : Nat
  vote_quorum_percent : Nat
deriving DecidableEq

/-- Sum of the weights of all cast votes, the numerator of the
`participationRatio`. -/
def total_vote_weight (votes : List vote) : Nat :=
  (votes.map (fun v => v.weight)).sum

/-- Modelled from the spec: `participationRatio ≥ percent` where
`participationRatio = totalWeight / maxSupply` and the threshold is a
percentage, compared without division by cross-multiplying:
`totalWeight / maxSupply ≥ percent / 100  ↔  totalWeight * 100 ≥ percent * maxSupply`. -/
def quorum_met (totalWeight maxSupply percent : Nat) : Bool :=
  totalWeight * 100 ≥ percent * maxSupply

/-- Modelled from the spec: the two gates of `newtenure` (the body of
`auditorbos::newtenure` is not among the repository sources, only its
declaration and doc comment are).  `lastRun` is `none` before the
first-ever successful run.  Timing gate: fails with `TooSoon` unless
`now ≥ lastSuccessfulRun + periodLength` (first run exempt).  Quorum
gate: compares the participation ratio against
`initial_vote_quorum_percent` on the first-ever run and against
`vote_quorum_percent` thereafter, failing with `QuorumNotMet`.  When both
gates pass, the run is recorded by returning `now` as the new
`lastSuccessfulRun`; a failure aborts the whole action, so an error
carries no successor state. -/
def newtenure_gates (p : tenure_params) (now : Nat) (lastRun : Option Nat)
    (votes : List vote) (maxSupply : Nat) : Except newtenure_err Nat :=
  match lastRun with
  | some t =>
    if now < t + p.periodLength then .error .TooSoon
    else if quorum_met (total_vote_weight votes) maxSupply p.vote_quorum_percent then
      .ok now
    else .error .QuorumNotMet
  | none =>
    if quorum_met (total_vote_weight votes) maxSupply p.initial_vote_quorum_percent then
      .ok now
    else .error .QuorumNotMet

/- ### Helper lemmas on the table operations -/

theorem find_modify_self (t : List candidate) (k : Nat) (f : candidate → candidate)
    (hf : ∀ c, (f c).candidate_name = c.candidate_name) :
    candidates_find (candidates_modify t k f) k = (candidates_find t k).map f := by
  induction t with
  | nil => rfl
  | cons hd tl ih =>
    simp only [candidates_find, candidates_modify, List.map_cons] at ih ⊢
    by_cases h : hd.candidate_name = k
    · rw [if_pos (by simpa using h)]
      rw [List.find?_cons_of_pos _ (by simp [hf, h]),
          List.find?_cons_of_pos _ (by simp [h])]
      rfl
    · rw [if_neg (by simpa using h)]
      rw [List.find?_cons_of_neg _ (by simp [h]),
          List.find?_cons_of_neg _ (by simp [h])]
      exact ih

theorem find_modify_other (t : List candidate) (k k' : Nat) (f : candidate → candidate)
    (hf : ∀ c, (f c).candidate_name = c.candidate_name) (hne : k' ≠ k) :
    candidates_find (candidates_modify t k f) k' = candidates_find t k' := by
  induction t with
  | nil => rfl
  | cons hd tl ih =>
    simp only [candidates_find, candidates_modify, List.map_cons] at ih ⊢
    by_cases h : hd.candidate_name = k
    · have hk' : ¬ hd.candidate_name = k' := fun hkk => hne (hkk.symm.trans h)
      rw [if_pos (by simpa using h)]
      rw [List.find?_cons_of_neg _ (by simp [hf, hk']),
          List.find?_cons_of_neg _ (by simp [hk'])]
      exact ih
    · rw [if_neg (by simpa using h)]
      by_cases h2 : hd.candidate_name = k'
      · rw [List.find?_cons_of_pos _ (by simp [h2]),
            List.find?_cons_of_pos _ (by simp [h2])]
      · rw [List.find?_cons_of_neg _ (by simp [h2]),
            List.find?_cons_of_neg _ (by simp [h2])]
        exact ih

theorem find_append_none (t : List candidate) (row : candidate) (k : Nat)
    (h : candidates_find t k = none) :
    candidates_find (t ++ [row]) k =
      (if row.candidate_name = k then some row else none) := by
  induction t with
  | nil =>
    by_cases hr : row.candidate_name = k
    · simp only [candidates_find, List.nil_append]
      rw [List.find?_cons_of_pos _ (by simp [hr]), if_pos hr]
    · simp only [candidates_find, List.nil_append]
      rw [List.find?_cons_of_neg _ (by simp [hr]), if_neg hr]
      rfl
  | cons hd tl ih =>
    simp only [candidates_find, List.cons_append] at h ih ⊢
    by_cases hh : hd.candidate_name = k
    · rw [List.find?_cons_of_pos _ (by simp [hh])] at h
      exact absurd h (by simp)
    · rw [List.find?_cons_of_neg _ (by simp [hh])] at h
      rw [List.find?_cons_of_neg _ (by simp [hh])]
      exact ih h

/- ### Unfolding lemmas for the `stake` handler -/

theorem stake_to_self_existing (self : Nat) (s : contract_state) (now from_ : Nat)
    (q : asset) (memo : String) (c : candidate)
    (hc : candidates_find s.registered_candidates from_ = some c) :
    stake self s now from_ self q memo =
      { s with registered_candidates :=
          candidates_modify s.registered_candidates from_ (fun row =>
            { row with
                locked_tokens := asset_add row.locked_tokens q,
                unstaking_end_time_stamp := now + s.config.lockup_release_time_delay }) } := by
  simp only [stake, beq_self_eq_true, if_true, contract_state.configs, hc]

theorem stake_to_self_new (self : Nat) (s : contract_state) (now from_ : Nat)
    (q : asset) (memo : String)
    (hnone : candidates_find s.registered_candidates from_ = none) :
    stake self s now from_ self q memo =
      { s with registered_candidates := s.registered_candidates ++
          [{ candidate_name := from_, locked_tokens := q, total_votes := 0,
             is_active := 0,
             unstaking_end_time_stamp := now + s.config.lockup_release_time_delay }] } := by
  simp only [stake, beq_self_eq_true, if_true, contract_state.configs, hnone]

theorem contr_config_eq_of_fields (c1 c2 : contr_config)
    (h1 : c1.lockupasset = c2.lockupasset) (h2 : c1.maxvotes = c2.maxvotes)
    (h3 : c1.numelected = c2.numelected) (h4 : c1.authaccount = c2.authaccount)
    (h5 : c1.auth_threshold_auditors = c2.auth_threshold_auditors)
    (h6 : c1.lockup_release_time_delay = c2.lockup_release_time_delay) :
    c1 = c2 := by
  cases c1
  cases c2
  simp_all

/- ### Claim theorems -/

/-- C1: the spec claims a transfer notification whose memo does not name the
contract performs no state mutation.  The code contradicts this (and its own
declaration doc, which says a non-matching memo is regarded only as a generic
transfer): the handler never inspects the memo, so a transfer addressed to
the contract (account 1) with memo "donation" from account 2, which has no
candidate row, creates a locked candidate row for account 2. -/
theorem stake_unrecognized_memo_mutates_state :
    candidates_find
        (stake 1
          { config := { lockupasset := ⟨100, 4⟩, maxvotes := 3, numelected := 5,
                        authaccount := 9, auth_threshold_auditors := 3,
                        lockup_release_time_delay := 10 },
            registered_candidates := [],
            votes_cast_by_members := [] }
          100 2 1 ⟨50, 7⟩ ("donation")).registered_candidates 2 =
      some { candidate_name := 2, locked_tokens := ⟨50, 7⟩, total_votes := 0,
             is_active := 0, unstaking_end_time_stamp := 110 } := by
  rfl

/-- C2 (counterexample): `contr_config` is fully determined by its six fields
(lockup asset, max votes, number elected, auth account, auth threshold,
lockup release delay), so no reading of the configuration can yield a quorum
percentage or period length that varies independently of those six fields —
the config does not hold them. -/
theorem config_has_no_quorum_or_period_field :
    ¬ ∃ q : contr_config → Nat, ∃ c1 c2 : contr_config,
        (c1.lockupasset = c2.lockupasset ∧ c1.maxvotes = c2.maxvotes ∧
         c1.numelected = c2.numelected ∧ c1.authaccount = c2.authaccount ∧
         c1.auth_threshold_auditors = c2.auth_threshold_auditors ∧
         c1.lockup_release_time_delay = c2.lockup_release_time_delay) ∧
        q c1 ≠ q c2 := by
  rintro ⟨q, c1, c2, ⟨h1, h2, h3, h4, h5, h6⟩, hne⟩
  exact hne (congrArg q (contr_config_eq_of_fields c1 c2 h1 h2 h3 h4 h5 h6))

/-- C2 (amended): the configuration singleton holds exactly the six tunable
parameters present in the source struct — lockup asset, vote limit, board
size, auth account, auditor auth threshold and lockup release delay — and is
fully determined by them; quorum percentages and a minimum period length are
not among its fields. -/
theorem contr_config_determined_by_six_fields (c1 c2 : contr_config)
    (h1 : c1.lockupasset = c2.lockupasset) (h2 : c1.maxvotes = c2.maxvotes)
    (h3 : c1.numelected = c2.numelected) (h4 : c1.authaccount = c2.authaccount)
    (h5 : c1.auth_threshold_auditors = c2.auth_threshold_auditors)
    (h6 : c1.lockup_release_time_delay = c2.lockup_release_time_delay) :
    c1 = c2 :=
  contr_config_eq_of_fields c1 c2 h1 h2 h3 h4 h5 h6

theorem contr_config_determined_by_six_fields_witness :
    contr_config.fresh =
      { lockupasset := ⟨0, 0⟩, maxvotes := 3, numelected := 5, authaccount := 0,
        auth_threshold_auditors := 0, lockup_release_time_delay := 0 } :=
  contr_config_determined_by_six_fields contr_config.fresh
    { lockupasset := ⟨0, 0⟩, maxvotes := 3, numelected := 5, authaccount := 0,
      auth_threshold_auditors := 0, lockup_release_time_delay := 0 }
    rfl rfl rfl rfl rfl rfl

/-- C3: for every transfer notification addressed to the contract whose
sender already has a candidate row, `stake` increments the `locked_tokens`
of that row by the transferred quantity and resets its
`unstaking_end_time_stamp` to `now + lockup_release_time_delay`. -/
theorem stake_existing_candidate_updates
    (self : Nat) (s : contract_state) (now from_ : Nat) (q : asset) (memo : String)
    (c : candidate) (hc : candidates_find s.registered_candidates from_ = some c) :
    candidates_find (stake self s now from_ self q memo).registered_candidates from_ =
      some { c with
               locked_tokens := asset_add c.locked_tokens q,
               unstaking_end_time_stamp := now + s.config.lockup_release_time_delay } := by
  rw [stake_to_self_existing self s now from_ q memo c hc]
  rw [show ({ s with registered_candidates :=
      candidates_modify s.registered_candidates from_ (fun row =>
        { row with
            locked_tokens := asset_add row.locked_tokens q,
            unstaking_end_time_stamp := now + s.config.lockup_release_time_delay }) } :
      contract_state).registered_candidates =
      candidates_modify s.registered_candidates from_ (fun row =>
        { row with
            locked_tokens := asset_add row.locked_tokens q,
            unstaking_end_time_stamp := now + s.config.lockup_release_time_delay }) from rfl]
  rw [find_modify_self s.registered_candidates from_
        (fun row =>
          { row with
              locked_tokens := asset_add row.locked_tokens q,
              unstaking_end_time_stamp := now + s.config.lockup_release_time_delay })
        (fun r => rfl), hc]
  rfl

theorem stake_existing_candidate_updates_witness :
    candidates_find
        (stake 1
          { config := { lockupasset := ⟨100, 4⟩, maxvotes := 3, numelected := 5,
                        authaccount := 9, auth_threshold_auditors := 3,
                        lockup_release_time_delay := 10 },
            registered_candidates :=
              [{ candidate_name := 2, locked_tokens := ⟨30, 7⟩, total_votes := 4,
                 is_active := 1, unstaking_end_time_stamp := 50 }],
            votes_cast_by_members := [] }
          100 2 1 ⟨50, 7⟩ ("staking")).registered_candidates 2 =
      some { candidate_name := 2, locked_tokens := ⟨80, 7⟩, total_votes := 4,
             is_active := 1, unstaking_end_time_stamp := 110 } :=
  stake_existing_candidate_updates 1 _ 100 2 ⟨50, 7⟩ ("staking")
    { candidate_name := 2, locked_tokens := ⟨30, 7⟩, total_votes := 4,
      is_active := 1, unstaking_end_time_stamp := 50 } rfl

/-- C4: for every transfer notification addressed to the contract whose
sender has no candidate row, `stake` emplaces a fresh row for the sender
with `locked_tokens` equal to the transferred quantity, `total_votes = 0`,
`is_active = 0` and `unstaking_end_time_stamp = now + lockup_release_time_delay`. -/
theorem stake_new_candidate_creates
    (self : Nat) (s : contract_state) (now from_ : Nat) (q : asset) (memo : String)
    (hnone : candidates_find s.registered_candidates from_ = none) :
    candidates_find (stake self s now from_ self q memo).registered_candidates from_ =
      some { candidate_name := from_, locked_tokens := q, total_votes := 0,
             is_active := 0,
             unstaking_end_time_stamp := now + s.config.lockup_release_time_delay } := by
  rw [stake_to_self_new self s now from_ q memo hnone]
  have h2 := find_append_none s.registered_candidates
    { candidate_name := from_, locked_tokens := q, total_votes := 0,
      is_active := 0,
      unstaking_end_time_stamp := now + s.config.lockup_release_time_delay }
    from_ hnone
  rw [if_pos rfl] at h2
  exact h2

theorem stake_new_candidate_creates_witness :
    candidates_find
        (stake 1
          { config := { lockupasset := ⟨100, 4⟩, maxvotes := 3, numelected := 5,
                        authaccount := 9, auth_threshold_auditors := 3,
                        lockup_release_time_delay := 10 },
            registered_candidates :=
              [{ candidate_name := 5, locked_tokens := ⟨30, 4⟩, total_votes := 4,
                 is_active := 1, unstaking_end_time_stamp := 50 }],
            votes_cast_by_members := [] }
          100 2 1 ⟨50, 4⟩ ("staking")).registered_candidates 2 =
      some { candidate_name := 2, locked_tokens := ⟨50, 4⟩, total_votes := 0,
             is_active := 0, unstaking_end_time_stamp := 110 } :=
  stake_new_candidate_creates 1 _ 100 2 ⟨50, 4⟩ ("staking") rfl

/-- C5: a transfer notification whose destination is not the contract
account leaves the entire contract state unchanged. -/
theorem stake_other_destination_noop
    (self : Nat) (s : contract_state) (now from_ to_ : Nat) (q : asset) (memo : String)
    (hto : to_ ≠ self) :
    stake self s now from_ to_ q memo = s := by
  simp only [stake]
  rw [if_neg (by simp [hto])]

theorem stake_other_destination_noop_witness :
    stake 1
        { config := { lockupasset := ⟨100, 4⟩, maxvotes := 3, numelected := 5,
                      authaccount := 9, auth_threshold_auditors := 3,
                      lockup_release_time_delay := 10 },
          registered_candidates := [],
          votes_cast_by_members := [] }
        100 2 3 ⟨50, 4⟩ ("payment") =
      { config := { lockupasset := ⟨100, 4⟩, maxvotes := 3, numelected := 5,
                    authaccount := 9, auth_threshold_auditors := 3,
                    lockup_release_time_delay := 10 },
        registered_candidates := [],
        votes_cast_by_members := [] } :=
  stake_other_destination_noop 1 _ 100 2 3 ⟨50, 4⟩ ("payment") (by decide)

/-- C6: a transfer notification addressed to the contract from an existing
candidate changes only the `locked_tokens` and
`unstaking_end_time_stamp`: its name, `total_votes` and `is_active` are
unchanged, every other candidate row is unchanged, and the vote table and
the configuration are unchanged. -/
theorem stake_existing_candidate_frame
    (self : Nat) (s : contract_state) (now from_ : Nat) (q : asset) (memo : String)
    (c : candidate) (hc : candidates_find s.registered_candidates from_ = some c) :
    (∀ k, k ≠ from_ →
        candidates_find (stake self s now from_ self q memo).registered_candidates k =
          candidates_find s.registered_candidates k) ∧
      (stake self s now from_ self q memo).votes_cast_by_members =
        s.votes_cast_by_members ∧
      (stake self s now from_ self q memo).config = s.config ∧
      ∃ c', candidates_find (stake self s now from_ self q memo).registered_candidates
              from_ = some c' ∧
        c'.candidate_name = c.candidate_name ∧
        c'.total_votes = c.total_votes ∧
        c'.is_active = c.is_active := by
  rw [stake_to_self_existing self s now from_ q memo c hc]
  refine ⟨?_, rfl, rfl, ?_⟩
  · intro k hk
    exact find_modify_other s.registered_candidates from_ k
      (fun row =>
        { row with
            locked_tokens := asset_add row.locked_tokens q,
            unstaking_end_time_stamp := now + s.config.lockup_release_time_delay })
      (fun r => rfl) hk
  · refine ⟨{ c with
        locked_tokens := asset_add c.locked_tokens q,
        unstaking_end_time_stamp := now + s.config.lockup_release_time_delay },
      ?_, rfl, rfl, rfl⟩
    rw [show ({ s with registered_candidates :=
        candidates_modify s.registered_candidates from_ (fun row =>
          { row with
              locked_tokens := asset_add row.locked_tokens q,
              unstaking_end_time_stamp := now + s.config.lockup_release_time_delay }) } :
        contract_state).registered_candidates =
        candidates_modify s.registered_candidates from_ (fun row =>
          { row with
              locked_tokens := asset_add row.locked_tokens q,
              unstaking_end_time_stamp := now + s.config.lockup_release_time_delay })
        from rfl]
    rw [find_modify_self s.registered_candidates from_
          (fun row =>
            { row with
                locked_tokens := asset_add row.locked_tokens q,
                unstaking_end_time_stamp := now + s.config.lockup_release_time_delay })
          (fun r => rfl), hc]
    rfl

theorem stake_existing_candidate_frame_witness :
    (stake 1
        { config := { lockupasset := ⟨100, 4⟩, maxvotes := 3, numelected := 5,
                      authaccount := 9, auth_threshold_auditors := 3,
                      lockup_release_time_delay := 10 },
          registered_candidates :=
            [{ candidate_name := 2, locked_tokens := ⟨30, 4⟩, total_votes := 4,
               is_active := 1, unstaking_end_time_stamp := 50 },
             { candidate_name := 5, locked_tokens := ⟨60, 4⟩, total_votes := 9,
               is_active := 1, unstaking_end_time_stamp := 70 }],
          votes_cast_by_members := [{ voter := 8, proxy := 0, weight := 4,
                                      candidates := [2] }] }
        100 2 1 ⟨50, 4⟩ ("staking")).votes_cast_by_members =
      [{ voter := 8, proxy := 0, weight := 4, candidates := [2] }] :=
  (stake_existing_candidate_frame 1
    { config := { lockupasset := ⟨100, 4⟩, maxvotes := 3, numelected := 5,
                  authaccount := 9, auth_threshold_auditors := 3,
                  lockup_release_time_delay := 10 },
      registered_candidates :=
        [{ candidate_name := 2, locked_tokens := ⟨30, 4⟩, total_votes := 4,
           is_active := 1, unstaking_end_time_stamp := 50 },
         { candidate_name := 5, locked_tokens := ⟨60, 4⟩, total_votes := 9,
           is_active := 1, unstaking_end_time_stamp := 70 }],
      votes_cast_by_members := [{ voter := 8, proxy := 0, weight := 4,
                                  candidates := [2] }] }
    100 2 ⟨50, 4⟩ ("staking")
    { candidate_name := 2, locked_tokens := ⟨30, 4⟩, total_votes := 4,
      is_active := 1, unstaking_end_time_stamp := 50 } rfl).2.1

/-- C7: a freshly value-initialized configuration has `maxvotes = 3` and
`numelected = 5`, the C++ default member initializers of `contr_config`. -/
theorem fresh_config_defaults :
    contr_config.fresh.maxvotes = 3 ∧ contr_config.fresh.numelected = 5 :=
  ⟨rfl, rfl⟩

/-- C8 (modelled from the spec, the `unstake` body being absent from the
sources): `unstake` fails with `NotPreviouslyCandidate` when no candidate
row exists, with `StillActive` when the row is active, with `LockedUp`
when `now` is before the unstaking end time; on success it issues an
outbound transfer of exactly the locked tokens back to the candidate and
zeroes the locked amount of the row, leaving every other row, the vote table
and the configuration unchanged.  An error result carries no successor
state, so a failure mutates nothing. -/
theorem unstake_spec_behaviour (s : contract_state) (now cand : Nat) :
    (candidates_find s.registered_candidates cand = none →
       unstake s now cand = .error .NotPreviouslyCandidate) ∧
    (∀ c, candidates_find s.registered_candidates cand = some c →
       c.is_active ≠ 0 → unstake s now cand = .error .StillActive) ∧
    (∀ c, candidates_find s.registered_candidates cand = some c →
       c.is_active = 0 → now < c.unstaking_end_time_stamp →
       unstake s now cand = .error .LockedUp) ∧
    (∀ c, candidates_find s.registered_candidates cand = some c →
       c.is_active = 0 → c.unstaking_end_time_stamp ≤ now →
       ∃ s', unstake s now cand =
           .ok (s', { to_account := cand, quantity := c.locked_tokens }) ∧
         candidates_find s'.registered_candidates cand =
           some { c with locked_tokens := { c.locked_tokens with amount := 0 } } ∧
         (∀ k, k ≠ cand → candidates_find s'.registered_candidates k =
            candidates_find s.registered_candidates k) ∧
         s'.votes_cast_by_members = s.votes_cast_by_members ∧
         s'.config = s.config) := by
  refine ⟨?_, ?_, ?_, ?_⟩
  · intro hnone
    simp only [unstake, hnone]
  · intro c hc hact
    simp only [unstake, hc]
    rw [if_pos hact]
  · intro c hc hact hlt
    simp only [unstake, hc]
    rw [if_neg (fun h => h hact), if_pos hlt]
  · intro c hc hact hle
    simp only [unstake, hc]
    rw [if_neg (fun h => h hact), if_neg (Nat.not_lt.mpr hle)]
    refine ⟨_, rfl, ?_, ?_, rfl, rfl⟩
    · rw [show ({ s with registered_candidates :=
          candidates_modify s.registered_candidates cand (fun row =>
            { row with locked_tokens := { row.locked_tokens with amount := 0 } }) } :
          contract_state).registered_candidates =
          candidates_modify s.registered_candidates cand (fun row =>
            { row with locked_tokens := { row.locked_tokens with amount := 0 } })
          from rfl]
      rw [find_modify_self s.registered_candidates cand
            (fun row => { row with locked_tokens := { row.locked_tokens with amount := 0 } })
            (fun r => rfl), hc]
      rfl
    · intro k hk
      exact find_modify_other s.registered_candidates cand k
        (fun row => { row with locked_tokens := { row.locked_tokens with amount := 0 } })
        (fun r => rfl) hk

theorem unstake_spec_behaviour_witness :
    unstake
        { config := { lockupasset := ⟨100, 4⟩, maxvotes := 3, numelected := 5,
                      authaccount := 9, auth_threshold_auditors := 3,
                      lockup_release_time_delay := 10 },
          registered_candidates :=
            [{ candidate_name := 2, locked_tokens := ⟨100, 4⟩, total_votes := 0,
               is_active := 0, unstaking_end_time_stamp := 50 }],
          votes_cast_by_members := [] }
        10 2 = Except.error unstake_err.LockedUp :=
  (unstake_spec_behaviour
    { config := { lockupasset := ⟨100, 4⟩, maxvotes := 3, numelected := 5,
                  authaccount := 9, auth_threshold_auditors := 3,
                  lockup_release_time_delay := 10 },
      registered_candidates :=
        [{ candidate_name := 2, locked_tokens := ⟨100, 4⟩, total_votes := 0,
           is_active := 0, unstaking_end_time_stamp := 50 }],
      votes_cast_by_members := [] }
    10 2).2.2.1
    { candidate_name := 2, locked_tokens := ⟨100, 4⟩, total_votes := 0,
      is_active := 0, unstaking_end_time_stamp := 50 }
    rfl rfl (by decide)

/-- C9 (modelled from the spec, the `newtenure` body being absent from the
sources): past the timing gate, the quorum gate compares the participation
ratio (total cast vote weight over token max supply) against the initial
quorum percent on the first-ever successful run and against the regular
quorum percent thereafter; a ratio exactly equal to the applicable
threshold passes, a ratio one unit below it fails with `QuorumNotMet`, and
an error result carries no successor state, so a failure mutates nothing. -/
theorem newtenure_quorum_gate_spec (p : tenure_params) (now t : Nat)
    (votes : List vote) (maxSupply : Nat) :
    ((newtenure_gates p now none votes maxSupply = .ok now) ↔
        quorum_met (total_vote_weight votes) maxSupply
          p.initial_vote_quorum_percent = true) ∧
    (t + p.periodLength ≤ now →
      ((newtenure_gates p now (some t) votes maxSupply = .ok now) ↔
        quorum_met (total_vote_weight votes) maxSupply
          p.vote_quorum_percent = true)) ∧
    (total_vote_weight votes * 100 = p.initial_vote_quorum_percent * maxSupply →
      newtenure_gates p now none votes maxSupply = .ok now) ∧
    (total_vote_weight votes * 100 + 1 = p.initial_vote_quorum_percent * maxSupply →
      newtenure_gates p now none votes maxSupply = .error .QuorumNotMet) ∧
    (t + p.periodLength ≤ now →
      total_vote_weight votes * 100 = p.vote_quorum_percent * maxSupply →
      newtenure_gates p now (some t) votes maxSupply = .ok now) ∧
    (t + p.periodLength ≤ now →
      total_vote_weight votes * 100 + 1 = p.vote_quorum_percent * maxSupply →
      newtenure_gates p now (some t) votes maxSupply = .error .QuorumNotMet) := by
  refine ⟨?_, ?_, ?_, ?_, ?_, ?_⟩
  · simp only [newtenure_gates]
    cases hq : quorum_met (total_vote_weight votes) maxSupply
        p.initial_vote_quorum_percent <;> simp [hq]
  · intro hle
    simp only [newtenure_gates]
    rw [if_neg (by omega)]
    cases hq : quorum_met (total_vote_weight votes) maxSupply
        p.vote_quorum_percent <;> simp [hq]
  · intro heq
    have hq : quorum_met (total_vote_weight votes) maxSupply
        p.initial_vote_quorum_percent = true := by
      simp only [quorum_met, ge_iff_le, decide_eq_true_eq]
      omega
    simp [newtenure_gates, hq]
  · intro heq
    have hq : quorum_met (total_vote_weight votes) maxSupply
        p.initial_vote_quorum_percent = false := by
      simp only [quorum_met, ge_iff_le, decide_eq_false_iff_not]
      omega
    simp [newtenure_gates, hq]
  · intro hle heq
    have hq : quorum_met (total_vote_weight votes) maxSupply
        p.vote_quorum_percent = true := by
      simp only [quorum_met, ge_iff_le, decide_eq_true_eq]
      omega
    simp only [newtenure_gates]
    rw [if_neg (by omega)]
    simp [hq]
  · intro hle heq
    have hq : quorum_met (total_vote_weight votes) maxSupply
        p.vote_quorum_percent = false := by
      simp only [quorum_met, ge_iff_le, decide_eq_false_iff_not]
      omega
    simp only [newtenure_gates]
    rw [if_neg (by omega)]
    simp [hq]

theorem newtenure_quorum_gate_spec_witness :
    newtenure_gates ⟨7, 15, 10⟩ 100 none
        [{ voter := 1, proxy := 0, weight := 3, candidates := [2] }] 20 =
      Except.ok 100 ∧
    newtenure_gates ⟨7, 1, 10⟩ 100 none
        [{ voter := 1, proxy := 0, weight := 3, candidates := [2] }] 301 =
      Except.error newtenure_err.QuorumNotMet ∧
    newtenure_gates ⟨7, 15, 10⟩ 100 (some 50)
        [{ voter := 1, proxy := 0, weight := 3, candidates := [2] }] 30 =
      Except.ok 100 :=
  ⟨(newtenure_quorum_gate_spec ⟨7, 15, 10⟩ 100 0
      [{ voter := 1, proxy := 0, weight := 3, candidates := [2] }] 20).2.2.1 rfl,
   (newtenure_quorum_gate_spec ⟨7, 1, 10⟩ 100 0
      [{ voter := 1, proxy := 0, weight := 3, candidates := [2] }] 301).2.2.2.1 rfl,
   (newtenure_quorum_gate_spec ⟨7, 15, 10⟩ 100 50
      [{ voter := 1, proxy := 0, weight := 3, candidates := [2] }] 30).2.2.2.2.1
      (by decide) rfl⟩

/-- C10: the `stake` handler performs no validation of the transferred
symbol of the transferred asset against the configured lockup symbol: its result is
unchanged when the configured lockup asset is replaced arbitrarily, and a
sender with no existing candidate row gets a row whose locked tokens carry
the transferred quantity verbatim — any symbol — with no guard or error
branch. -/
theorem stake_no_symbol_validation
    (self : Nat) (s : contract_state) (now from_ to_ : Nat) (q : asset) (memo : String)
    (a' : asset) :
    ((stake self { s with config := { s.config with lockupasset := a' } } now from_ to_ q
        memo).registered_candidates =
      (stake self s now from_ to_ q memo).registered_candidates) ∧
    (to_ = self → candidates_find s.registered_candidates from_ = none →
      candidates_find (stake self s now from_ to_ q memo).registered_candidates from_ =
        some { candidate_name := from_, locked_tokens := q, total_votes := 0,
               is_active := 0,
               unstaking_end_time_stamp := now + s.config.lockup_release_time_delay }) := by
  constructor
  · simp only [stake, contract_state.configs]
    cases hb : (to_ == self)
    · simp
    · cases hf : candidates_find s.registered_candidates from_ <;> simp [hf]
  · intro hto hnone
    rw [hto]
    rw [stake_to_self_new self s now from_ q memo hnone]
    have h2 := find_append_none s.registered_candidates
      { candidate_name := from_, locked_tokens := q, total_votes := 0,
        is_active := 0,
        unstaking_end_time_stamp := now + s.config.lockup_release_time_delay }
      from_ hnone
    rw [if_pos rfl] at h2
    exact h2

theorem stake_no_symbol_validation_witness :
    candidates_find
        (stake 1
          { config := { lockupasset := ⟨100, 4⟩, maxvotes := 3, numelected := 5,
                        authaccount := 9, auth_threshold_auditors := 3,
                        lockup_release_time_delay := 10 },
            registered_candidates := [],
            votes_cast_by_members := [] }
          100 2 1 ⟨50, 12345⟩ ("staking")).registered_candidates 2 =
      some { candidate_name := 2, locked_tokens := ⟨50, 12345⟩, total_votes := 0,
             is_active := 0, unstaking_end_time_stamp := 110 } :=
  (stake_no_symbol_validation 1
    { config := { lockupasset := ⟨100, 4⟩, maxvotes := 3, numelected := 5,
                  authaccount := 9, auth_threshold_auditors := 3,
                  lockup_release_time_delay := 10 },
      registered_candidates := [],
      votes_cast_by_members := [] }
    100 2 1 ⟨50, 12345⟩ ("staking") ⟨0, 0⟩).2 rfl rfl
